import Mathlib

/-!
# CroGas relay server — verification of the specification against the source

Shallow embedding of the CroGas gasless-transaction relay (TypeScript,
ethers.js) in Lean 4.  Pure computations (pricing, payment verification,
relayer selection) are translated line by line into Lean functions; the
HTTP controllers are modelled as pure functions of an "environment" that
fixes the outcome of every external effect (RPC reads, transaction
sends), returning the HTTP response together with a trace of the
on-chain actions they perform, in order.

Numeric note: the service computes monetary values in JavaScript
doubles and converts to integer USDC base units via `toFixed(6)` +
`parseUnits(_, 6)`.  The embedding uses exact rationals with the same
floor/rounding points; at the magnitudes the service handles, double
rounding error (≈1e-16 relative) is far below the 1e-6 formatting
granularity, so the rational model yields the same base-unit results.
-/

namespace CroGas

/-- JavaScript `String.prototype.toLowerCase()` restricted to the hex
addresses the service compares (`payment.service.ts` line 67):
per-character lowercasing of the string. -/
def lowerStr (s : String) : String := ⟨s.data.map Char.toLower⟩

/-- `hay` contains `needle` as a substring (stated on the character
lists of the two strings). -/
def containsSubstr (hay needle : String) : Prop :=
  ∃ a b : List Char, hay.data = a ++ needle.data ++ b

/-! ## Payment service (`src/services/payment.service.ts`) -/

/-- EIP-3009 authorization carried in the x402 payment header.
Integer fields arrive as decimal strings and are parsed to BigInt;
they are modelled as `Nat` (uint256 token amounts / unix seconds). -/
structure X402Authorization where
  fromAddr : String
  toAddr : String
  value : Nat
  validAfter : Nat
  validBefore : Nat
  nonce : String
deriving Repr, DecidableEq

/-- The x402 payment payload (signature + authorization); `version`,
`scheme` and `network` are not consulted by `verifyPayment` or
`executePayment` and are omitted. -/
structure X402Payment where
  signature : String
  authorization : X402Authorization
deriving Repr, DecidableEq

/-- Result of `verifyPayment`: `{ valid: boolean; reason?: string }`. -/
structure VerifyResult where
  valid : Bool
  reason : Option String
deriving Repr, DecidableEq

/-- Outcomes of the two on-chain reads performed by `verifyPayment`
(`usdcContract.authorizationState`, `usdcContract.balanceOf`).
`Except.error` models the RPC call throwing. -/
structure ChainReads where
  authState : Except Unit Bool
  balance : Except Unit Nat

/-- Reason string built at `payment.service.ts` line 76. -/
def insufficientAmountMsg (got : Nat) (need : ℤ) : String :=
  "Insufficient amount: got " ++ toString got ++ ", need " ++ toString need

/-- Reason string built at `payment.service.ts` line 105. -/
def insufficientBalanceMsg (balance payment : Nat) : String :=
  "Payer has insufficient USDC: " ++ toString balance ++ " < " ++ toString payment

/-- `PaymentService.verifyPayment(payment, expectedAmount)`.
`receivingWallet` is `env.RECEIVING_WALLET`; `now` is
`Math.floor(Date.now()/1000)`; `chain` fixes the two RPC reads.
A throwing read is caught and only logged (lines 95–97, 108–110),
so the corresponding check is skipped. -/
def verifyPayment (receivingWallet : String) (payment : X402Payment)
    (expectedAmount : ℤ) (now : Nat) (chain : ChainReads) : VerifyResult :=
  let auth := payment.authorization
  if lowerStr auth.toAddr ≠ lowerStr receivingWallet then
    ⟨false, some "Wrong recipient address"⟩
  else
    let paymentAmount := auth.value
    if (paymentAmount : ℤ) < expectedAmount then
      ⟨false, some (insufficientAmountMsg auth.value expectedAmount)⟩
    else if now ≤ auth.validAfter then
      ⟨false, some "Authorization not yet valid"⟩
    else if auth.validBefore ≤ now then
      ⟨false, some "Authorization expired"⟩
    else
      let balanceCheck : VerifyResult :=
        match chain.balance with
        | .ok balance =>
            if balance < paymentAmount then
              ⟨false, some (insufficientBalanceMsg balance paymentAmount)⟩
            else ⟨true, none⟩
        | .error _ => ⟨true, none⟩
      match chain.authState with
      | .ok used => if used then ⟨false, some "Authorization nonce already used"⟩ else balanceCheck
      | .error _ => balanceCheck

/-- Spec model of the six `verifyPayment` checks, in the spec's order,
each paired with the reason reported on failure. -/
def verifyChecks (receivingWallet : String) (payment : X402Payment)
    (expectedAmount : ℤ) (now : Nat) (used : Bool) (balance : Nat) :
    List (Bool × String) :=
  let auth := payment.authorization
  [ (lowerStr auth.toAddr == lowerStr receivingWallet, "Wrong recipient address"),
    (decide (expectedAmount ≤ (auth.value : ℤ)), insufficientAmountMsg auth.value expectedAmount),
    (decide (auth.validAfter < now), "Authorization not yet valid"),
    (decide (now < auth.validBefore), "Authorization expired"),
    (!used, "Authorization nonce already used"),
    (decide (auth.value ≤ balance), insufficientBalanceMsg balance auth.value) ]

/-- First failing check's reason, later checks short-circuited. -/
def firstFailing : List (Bool × String) → Option String
  | [] => none
  | (ok, reason) :: rest => if ok then firstFailing rest else some reason

/-- Spec model of `verify(envelope, expectedAmount)`: valid iff no check
fails, otherwise the first failing check's reason. -/
def verifyPaymentSpec (receivingWallet : String) (payment : X402Payment)
    (expectedAmount : ℤ) (now : Nat) (used : Bool) (balance : Nat) : VerifyResult :=
  match firstFailing (verifyChecks receivingWallet payment expectedAmount now used balance) with
  | none => ⟨true, none⟩
  | some reason => ⟨false, some reason⟩

/-- A mined transaction receipt (`status` is 1 on success). -/
structure Receipt where
  status : Nat
  hash : String
deriving Repr, DecidableEq

/-- `PaymentService.executePayment`: sends `transferWithAuthorization`
and awaits the receipt.  `sendResult = none` models the send or wait
throwing; a receipt with `status ≠ 1` makes the method throw
("Payment transaction failed", line 150–152); otherwise the receipt
hash is returned. -/
def executePayment (sendResult : Option Receipt) : Except Unit String :=
  match sendResult with
  | none => .error ()
  | some receipt => if receipt.status = 1 then .ok receipt.hash else .error ()

/-! ## Pricing service (`src/services/pricing.service.ts`) -/

inductive Priority where
  | slow
  | normal
  | fast
deriving Repr, DecidableEq

/-- Multipliers of `PRIORITY_CONFIGS` (labels/emoji omitted). -/
structure PriorityConfig where
  markupMultiplier : ℚ
  gasPriceMultiplier : ℚ
deriving Repr, DecidableEq

/-- `PRIORITY_CONFIGS`: slow (0.5, 0.8), normal (1.0, 1.0), fast (2.0, 1.5). -/
def PRIORITY_CONFIGS : Priority → PriorityConfig
  | .slow => ⟨1/2, 4/5⟩
  | .normal => ⟨1, 1⟩
  | .fast => ⟨2, 3/2⟩

/-- `PRICING.MAX_PRICE_USDC` from `src/config/constants.ts`. -/
def MAX_PRICE_USDC : ℚ := 10

/-- Pricing configuration read from the process environment. -/
structure PricingEnv where
  markupPercentage : ℚ
  minPriceUsdc : ℚ
  croUsdPrice : ℚ
deriving Repr, DecidableEq

/-- `Number(x).toFixed(6)` followed by `parseUnits(_, 6)`: rounds to the
nearest multiple of 1e-6 (ties away from zero for the nonneg prices the
service produces) and scales to USDC base units. -/
def round6 (q : ℚ) : ℤ := ⌊q * 1000000 + 1/2⌋

/-- USD base cost of the gas: lines 127–135 of the pricing service.
`adjustedGasPrice = BigInt(Math.floor(Number(baseGasPrice) * gasPriceMultiplier))`,
`gasCostWei = gasEstimate * adjustedGasPrice`,
`gasCostCro = Number(formatUnits(gasCostWei, 18))`,
`baseCostUSD = gasCostCro * croUsdPrice`. -/
def baseCostUSD (gasEstimate baseGasPrice : ℕ) (priority : Priority)
    (env : PricingEnv) : ℚ :=
  let config := PRIORITY_CONFIGS priority
  let adjustedGasPrice : ℤ := ⌊(baseGasPrice : ℚ) * config.gasPriceMultiplier⌋
  let gasCostWei : ℤ := (gasEstimate : ℤ) * adjustedGasPrice
  let gasCostCro : ℚ := (gasCostWei : ℚ) / 10 ^ 18
  gasCostCro * env.croUsdPrice

/-- `calculatePrice(gasEstimate, priority).finalPriceRaw` (USDC base
units, 6 decimals), lines 122–150 of the pricing service. -/
def calculatePrice (gasEstimate baseGasPrice : ℕ) (priority : Priority)
    (env : PricingEnv) : ℤ :=
  let config := PRIORITY_CONFIGS priority
  let baseMarkup : ℚ := 1 + env.markupPercentage / 100
  let markup : ℚ := 1 + (baseMarkup - 1) * config.markupMultiplier
  let priceAfterMarkup : ℚ := baseCostUSD gasEstimate baseGasPrice priority env * markup
  let minPrice : ℚ := env.minPriceUsdc * config.markupMultiplier
  let priceFloored : ℚ := max priceAfterMarkup (max minPrice (5/1000))
  let priceCapped : ℚ := min priceFloored MAX_PRICE_USDC
  round6 priceCapped

/-! ## Relayer pool (`src/services/relayer-pool.service.ts`) -/

/-- Per-relayer mutable state held by `RelayerPoolService`. -/
structure RelayerState where
  address : String
  pendingTxCount : Nat
  lastUsed : Nat
  nonce : Nat
deriving Repr, DecidableEq

/-- Body of the selection loop in `getRelayer` (lines 100–105):
replace the best candidate only on a strictly smaller pending count. -/
def selectBest (best relayer : RelayerState) : RelayerState :=
  if relayer.pendingTxCount < best.pendingTxCount then relayer else best

/-- `RelayerPoolService.getRelayer()`: seeds with `relayers[0]` and scans
the whole array; `none` models the throw on an empty/uninitialized pool. -/
def getRelayer : List RelayerState → Option RelayerState
  | [] => none
  | r :: rs => some ((r :: rs).foldl selectBest r)

/-! ## Forwarder service (`src/services/forwarder.service.ts`) -/

/-- The signed `ForwardRequest` envelope; numeric fields arrive as
decimal strings and are parsed to BigInt. -/
structure ForwardRequest where
  fromAddr : String
  toAddr : String
  value : Nat
  gas : Nat
  nonce : Nat
  deadline : Nat
  data : String
deriving Repr, DecidableEq

/-- Return value of `forwarderService.execute`: the mined outer tx hash,
the inner call's success decoded from the `Executed` event, and the
inner return data. -/
structure ExecResult where
  txHash : String
  success : Bool
  result : String
deriving Repr, DecidableEq

/-! ## Meta-relay controllers (`src/api/meta.controller.ts`) -/

/-- On-chain transactions issued while serving a relay request, in
program order.  `signer` is the address of the wallet to which the
issuing `Contract` is bound (both `PaymentService` and
`ForwarderService` bind their contracts to `walletService.wallet`). -/
inductive Ev where
  | settleReceipt (signer : String) (status : Nat)
  | forwardExecuted (signer : String) (index : Nat)
deriving Repr, DecidableEq

/-- The wallet that signed the traced transaction. -/
def Ev.signer : Ev → String
  | .settleReceipt s _ => s
  | .forwardExecuted s _ => s

/-- `executePayment` together with its trace: when a receipt is
obtained, it has been awaited (and its status observed) before the
method returns. -/
def executePaymentTr (signer : String) (sendResult : Option Receipt) :
    List Ev × Except Unit String :=
  (match sendResult with
   | none => []
   | some receipt => [Ev.settleReceipt signer receipt.status],
   executePayment sendResult)

/-- Per-item outcome collected by the batch loop:
`{success, txHash, to}` or `{success:false, error, to}`. -/
structure BatchItemResult where
  success : Bool
  txHash : Option String
  error : Option String
  toAddr : String
deriving Repr, DecidableEq

/-- The JSON body/status pairs the controllers produce (fields not
relevant to the claims are omitted; `error` is the error code). -/
structure HttpResponse where
  status : Nat
  error : Option String := none
  message : Option String := none
  success : Option Bool := none
  paymentTxHash : Option String := none
  results : List BatchItemResult := []
deriving Repr, DecidableEq

/-- Process-wide configuration consulted by the relay pipelines. -/
structure ServerConfig where
  receivingWallet : String
  pricing : PricingEnv
  baseGasPrice : Nat
deriving Repr, DecidableEq

/-- Environment fixing every external outcome of one
`POST /meta/relay` request. -/
structure SingleRelayEnv where
  schemaOk : Bool
  request : ForwardRequest
  priority : Priority
  sigValid : Bool
  paymentHeader : Option (Option X402Payment)
  now : Nat
  chain : ChainReads
  settleSend : Option Receipt
  execOutcome : Option ExecResult

/-- Result of running a controller: the trace of issued transactions,
the HTTP response, and the relayer pool state after the request. -/
structure ControllerOutcome where
  trace : List Ev
  response : HttpResponse
  pool : List RelayerState
deriving Repr, DecidableEq

/-- `metaRelayController` (single relay, `POST /meta/relay`).
`primaryWallet` is `walletService.wallet`'s address; `pool` is the
`relayerPool` state, which no step of this controller references. -/
def metaRelayController (primaryWallet : String) (cfg : ServerConfig)
    (env : SingleRelayEnv) (pool : List RelayerState) : ControllerOutcome :=
  if ¬ env.schemaOk then
    ⟨[], { status := 400, error := some "Invalid request" }, pool⟩
  else if ¬ env.sigValid then
    ⟨[], { status := 400, error := some "INVALID_SIGNATURE" }, pool⟩
  else
    let quoteRaw := calculatePrice env.request.gas cfg.baseGasPrice env.priority cfg.pricing
    match env.paymentHeader with
    | none => ⟨[], { status := 402, error := some "Payment Required" }, pool⟩
    | some none => ⟨[], { status := 400, error := some "INVALID_PAYMENT" }, pool⟩
    | some (some payment) =>
      let verification := verifyPayment cfg.receivingWallet payment quoteRaw env.now env.chain
      if ¬ verification.valid then
        ⟨[], { status := 402, error := some "PAYMENT_INVALID",
               message := verification.reason }, pool⟩
      else
        let settleStep := executePaymentTr primaryWallet env.settleSend
        match settleStep.2 with
        | .error _ =>
            ⟨settleStep.1, { status := 402, error := some "PAYMENT_FAILED" }, pool⟩
        | .ok paymentTxHash =>
          let execEvs := [Ev.forwardExecuted primaryWallet 0]
          match env.execOutcome with
          | none =>
              ⟨settleStep.1 ++ execEvs, { status := 500, error := some "INTERNAL_ERROR" }, pool⟩
          | some r =>
              ⟨settleStep.1 ++ execEvs,
               { status := 200, success := some r.success,
                 paymentTxHash := some paymentTxHash }, pool⟩

/-- Environment fixing every external outcome of one
`POST /meta/batch` request. -/
structure BatchRelayEnv where
  schemaOk : Bool
  requests : List ForwardRequest
  sigValids : List Bool
  priority : Priority
  paymentHeader : Option (Option X402Payment)
  now : Nat
  chain : ChainReads
  settleSend : Option Receipt
  execOutcomes : List (Except String ExecResult)

/-- The batch execution loop (lines 279–295): execute each request in
list order, collecting `{success, txHash, to}` on return and
`{success:false, error, to}` on throw. -/
def execBatch (items : List (ForwardRequest × Except String ExecResult)) :
    List BatchItemResult :=
  items.map fun item =>
    match item.2 with
    | .ok r => ⟨r.success, some r.txHash, none, item.1.toAddr⟩
    | .error msg => ⟨false, none, some msg, item.1.toAddr⟩

/-- `metaBatchController` (`POST /meta/batch`). -/
def metaBatchController (primaryWallet : String) (cfg : ServerConfig)
    (env : BatchRelayEnv) (pool : List RelayerState) : ControllerOutcome :=
  if ¬ env.schemaOk then
    ⟨[], { status := 400, error := some "Invalid request" }, pool⟩
  else if ¬ env.sigValids.all (fun b => b) then
    ⟨[], { status := 400, error := some "INVALID_SIGNATURE" }, pool⟩
  else
    let totalGas := (env.requests.map ForwardRequest.gas).sum
    let quoteRaw := calculatePrice totalGas cfg.baseGasPrice env.priority cfg.pricing
    let discountedPrice := quoteRaw * 90 / 100
    match env.paymentHeader with
    | none => ⟨[], { status := 402, error := some "Payment Required" }, pool⟩
    | some none => ⟨[], { status := 400, error := some "INVALID_PAYMENT" }, pool⟩
    | some (some payment) =>
      let verification := verifyPayment cfg.receivingWallet payment discountedPrice env.now env.chain
      if ¬ verification.valid then
        ⟨[], { status := 402, error := some "PAYMENT_INVALID",
               message := verification.reason }, pool⟩
      else
        let settleStep := executePaymentTr primaryWallet env.settleSend
        match settleStep.2 with
        | .error _ =>
            ⟨settleStep.1, { status := 402, error := some "PAYMENT_FAILED" }, pool⟩
        | .ok paymentTxHash =>
          let items := env.requests.zip env.execOutcomes
          let execEvs := (List.range items.length).map (Ev.forwardExecuted primaryWallet)
          let results := execBatch items
          let successCount := (results.filter (fun r => r.success)).length
          ⟨settleStep.1 ++ execEvs,
           { status := 200, success := some (successCount = results.length),
             paymentTxHash := some paymentTxHash, results := results }, pool⟩

/-- The undiscounted and discounted stablecoin amounts quoted by the
batch endpoint (lines 199–204): price the summed gas once at the
requested tier, then `discountedPrice = finalPriceRaw * 90n / 100n`. -/
def batchQuote (gasList : List Nat) (baseGasPrice : Nat) (priority : Priority)
    (env : PricingEnv) : ℤ × ℤ :=
  let quoteRaw := calculatePrice gasList.sum baseGasPrice priority env
  (quoteRaw, quoteRaw * 90 / 100)

/-! ## Health endpoint (`src/api/health.controller.ts`) -/

/-- The parts of the `/health` body the claims speak about. -/
structure HealthResponse where
  status : Nat
  statusText : String
  warnings : List String
deriving Repr, DecidableEq

/-- `healthController`: `croBalance` is `parseFloat(balances.cro)` (the
relayer's native balance in whole CRO), `croBalanceStr` the formatted
balance string interpolated into the warning.  Threshold is the
hard-coded `croThreshold = 10`. -/
def healthController (croBalance : ℚ) (croBalanceStr : String) : HealthResponse :=
  let isHealthy := 10 ≤ croBalance
  { status := if isHealthy then 200 else 503,
    statusText := if isHealthy then "healthy" else "degraded",
    warnings :=
      if isHealthy then []
      else ["Low CRO balance: " ++ croBalanceStr ++ " CRO (threshold: 10)"] }

/-! ## Concrete fixtures (used by witnesses) -/

/-- Pricing configuration: 20% markup, $0.01 minimum, $0.15 spot. -/
def pricingW : PricingEnv := ⟨20, 1/100, 3/20⟩

/-- Server configuration with the default 5000-gwei gas price. -/
def cfgW : ServerConfig := ⟨"0xRW", pricingW, 5000000000000⟩

/-- A payment envelope for 0.25 USDC to the receiving wallet. -/
def payW : X402Payment := ⟨"0xsig", ⟨"0xagent", "0xrw", 250000, 0, 10, "0xn"⟩⟩

/-- A single-relay request environment in which every step succeeds. -/
def relayEnvW : SingleRelayEnv :=
  { schemaOk := true
    request := ⟨"0xagent", "0xt", 0, 100000, 0, 99, "0xd"⟩
    priority := .normal
    sigValid := true
    paymentHeader := some (some payW)
    now := 5
    chain := ⟨Except.ok false, Except.ok 1000000000⟩
    settleSend := some ⟨1, "0xpay"⟩
    execOutcome := some ⟨"0xh", true, "0x"⟩ }

/-- Like `relayEnvW` but the settlement transaction reverts
(receipt status 0). -/
def relayEnvFailW : SingleRelayEnv :=
  { relayEnvW with settleSend := some ⟨0, "0xpay"⟩ }

/-- Two forward requests of 150000 gas each. -/
def req1 : ForwardRequest := ⟨"0xagent", "0xt1", 0, 150000, 0, 99, "0xdata1"⟩

/-- See `req1`. -/
def req2 : ForwardRequest := ⟨"0xagent", "0xt2", 0, 150000, 0, 99, "0xdata2"⟩

/-- A batch environment: both signatures valid, payment settles, the
first execution succeeds and the second throws. -/
def batchEnvW : BatchRelayEnv :=
  { schemaOk := true
    requests := [req1, req2]
    sigValids := [true, true]
    priority := .normal
    paymentHeader := some (some payW)
    now := 5
    chain := ⟨Except.ok false, Except.ok 1000000000⟩
    settleSend := some ⟨1, "0xpay"⟩
    execOutcomes := [Except.ok ⟨"0xh1", true, "0x"⟩, Except.error "boom"] }

/-! ## Theorems -/

/-- C2: for every payment envelope and expected amount, `verifyPayment`
evaluates exactly the six checks in the specified order — recipient
equals the configured receiving wallet (case-insensitive hex),
`authorization.value ≥ expectedAmount`, `now > validAfter`,
`now < validBefore`, on-chain `authorizationState(from,nonce)` false,
on-chain stablecoin balance of `from` ≥ value — and returns
`{valid:false}` with the reason of the first failing check, skipping
all later checks; in particular a value one base unit below the quote
yields a reason containing "Insufficient amount". -/
theorem verifyPayment_six_checks_in_order :
    (∀ (rw : String) (p : X402Payment) (amt : ℤ) (now : Nat) (used : Bool) (bal : Nat),
      verifyPayment rw p amt now ⟨Except.ok used, Except.ok bal⟩ =
        verifyPaymentSpec rw p amt now used bal)
    ∧ (∀ (rw : String) (p : X402Payment) (amt : ℤ) (now : Nat) (chain : ChainReads),
        lowerStr p.authorization.toAddr = lowerStr rw →
        (p.authorization.value : ℤ) + 1 = amt →
        ∃ r, (verifyPayment rw p amt now chain).reason = some r ∧
          containsSubstr r "Insufficient amount") := by
  constructor
  · intro rw p amt now used bal
    simp only [verifyPayment, verifyPaymentSpec, verifyChecks, firstFailing]
    by_cases h1 : lowerStr p.authorization.toAddr = lowerStr rw
    · by_cases h2 : (p.authorization.value : ℤ) < amt
      · simp [h1, h2, not_le.mpr h2]
      · by_cases h3 : now ≤ p.authorization.validAfter
        · simp [h1, h2, h3, not_lt.mpr h3, not_lt.mp h2]
        · by_cases h4 : p.authorization.validBefore ≤ now
          · simp [h1, h2, h3, h4, not_lt.mpr h4, not_le.mp h3, not_lt.mp h2]
          · cases used with
            | true => simp [h1, h2, h3, h4, not_le.mp h3, not_le.mp h4, not_lt.mp h2]
            | false =>
              by_cases h5 : bal < p.authorization.value
              · simp [h1, h2, h3, h4, h5, not_le.mp h3, not_le.mp h4, not_lt.mp h2,
                  not_le.mpr h5]
              · simp [h1, h2, h3, h4, h5, not_le.mp h3, not_le.mp h4, not_lt.mp h2,
                  not_lt.mp h5]
    · simp [h1]
  · intro rw p amt now chain hrec hamt
    have hlt : (p.authorization.value : ℤ) < amt := by omega
    refine ⟨insufficientAmountMsg p.authorization.value amt, ?_, ?_⟩
    · simp [verifyPayment, hrec, hlt]
    · exact ⟨[], (": got " ++ toString p.authorization.value ++ ", need " ++
        toString amt).data, rfl⟩

/-- Witness for C2: an envelope to `0xaB` with value 99 against a quote
of 100 (receiving wallet `0xAb`, differing only in case) is rejected
with an "Insufficient amount" reason, and agrees with the spec-ordered
check list. -/
theorem verifyPayment_six_checks_in_order_witness :
    (verifyPayment "0xAb" ⟨"0xsig", ⟨"0xme", "0xaB", 99, 0, 10, "0xn"⟩⟩ 100 5
        ⟨Except.ok false, Except.ok 1000⟩ =
      verifyPaymentSpec "0xAb" ⟨"0xsig", ⟨"0xme", "0xaB", 99, 0, 10, "0xn"⟩⟩ 100 5 false 1000)
    ∧ (∃ r, (verifyPayment "0xAb" ⟨"0xsig", ⟨"0xme", "0xaB", 99, 0, 10, "0xn"⟩⟩ 100 5
        ⟨Except.ok false, Except.ok 1000⟩).reason = some r ∧
        containsSubstr r "Insufficient amount") :=
  ⟨verifyPayment_six_checks_in_order.1 "0xAb" ⟨"0xsig", ⟨"0xme", "0xaB", 99, 0, 10, "0xn"⟩⟩
      100 5 false 1000,
   verifyPayment_six_checks_in_order.2 "0xAb" ⟨"0xsig", ⟨"0xme", "0xaB", 99, 0, 10, "0xn"⟩⟩
      100 5 ⟨Except.ok false, Except.ok 1000⟩ (by decide) (by decide)⟩

/-- C9: if the on-chain reads (`authorizationState`, `balanceOf`) throw
during `verifyPayment`, the corresponding checks are silently skipped,
so an envelope passing the four off-chain checks is reported valid —
even though the very same envelope would be rejected (nonce already
used) had the read succeeded. -/
theorem verifyPayment_skips_failed_chain_reads (rw : String) (p : X402Payment)
    (amt : ℤ) (now : Nat) (bal : Nat)
    (hrec : lowerStr p.authorization.toAddr = lowerStr rw)
    (hamt : amt ≤ (p.authorization.value : ℤ))
    (hafter : p.authorization.validAfter < now)
    (hbefore : now < p.authorization.validBefore) :
    verifyPayment rw p amt now ⟨Except.error (), Except.error ()⟩ = ⟨true, none⟩
    ∧ (verifyPayment rw p amt now ⟨Except.ok true, Except.ok bal⟩).valid = false := by
  constructor
  · simp [verifyPayment, hrec, not_lt.mpr hamt, not_le.mpr hafter, not_le.mpr hbefore]
  · simp [verifyPayment, hrec, not_lt.mpr hamt, not_le.mpr hafter, not_le.mpr hbefore]

/-- Witness for C9: a concrete envelope whose RPC reads fail is
accepted, though with a successful read reporting the nonce as used it
would be rejected. -/
theorem verifyPayment_skips_failed_chain_reads_witness :
    verifyPayment "0xab" ⟨"0xsig", ⟨"0xme", "0xab", 100, 0, 10, "0xn"⟩⟩ 100 5
        ⟨Except.error (), Except.error ()⟩ = ⟨true, none⟩
    ∧ (verifyPayment "0xab" ⟨"0xsig", ⟨"0xme", "0xab", 100, 0, 10, "0xn"⟩⟩ 100 5
        ⟨Except.ok true, Except.ok 0⟩).valid = false :=
  verifyPayment_skips_failed_chain_reads "0xab" ⟨"0xsig", ⟨"0xme", "0xab", 100, 0, 10, "0xn"⟩⟩
    100 5 0 (by decide) (by decide) (by decide) (by decide)

/-- C8: `GET /health` responds 200 with status "healthy" when the
primary relayer's native balance is at least 10 units, and otherwise
responds 503 with status "degraded" and a warnings list whose first
entry contains "Low". -/
theorem healthController_threshold (cro : ℚ) (croStr : String) :
    (10 ≤ cro →
      healthController cro croStr = ⟨200, "healthy", []⟩)
    ∧ (cro < 10 →
      (healthController cro croStr).status = 503
      ∧ (healthController cro croStr).statusText = "degraded"
      ∧ ∃ w, (healthController cro croStr).warnings.head? = some w
          ∧ containsSubstr w "Low") := by
  constructor
  · intro h
    simp [healthController, h]
  · intro h
    refine ⟨by simp [healthController, not_le.mpr h], by simp [healthController, not_le.mpr h],
      "Low CRO balance: " ++ croStr ++ " CRO (threshold: 10)", ?_, ?_⟩
    · simp [healthController, not_le.mpr h]
    · exact ⟨[], (" CRO balance: " ++ croStr ++ " CRO (threshold: 10)").data, rfl⟩

/-- Witness for C8: a native balance of 0.5 units yields 503 "degraded"
with a first warning containing "Low", and a balance of 10 yields 200. -/
theorem healthController_threshold_witness :
    healthController 10 "10.0" = ⟨200, "healthy", []⟩
    ∧ ((healthController (1/2) "0.5").status = 503
      ∧ (healthController (1/2) "0.5").statusText = "degraded"
      ∧ ∃ w, (healthController (1/2) "0.5").warnings.head? = some w
          ∧ containsSubstr w "Low") :=
  ⟨(healthController_threshold 10 "10.0").1 (by norm_num),
   (healthController_threshold (1/2) "0.5").2 (by norm_num)⟩

/-- C4: for every gas estimate, base gas price, spot price, and tier,
`calculatePrice` computes the markup as
`1 + (configuredMarkupPercent/100) × tier.markupMultiplier`, multiplies
it onto the USD base cost, then clamps the result to at least
`max(configuredMinUsd × tier.markupMultiplier, 0.005)` and at most the
configured maximum, in that order. -/
theorem calculatePrice_markup_then_clamps (gas base : ℕ) (pr : Priority) (env : PricingEnv) :
    calculatePrice gas base pr env =
      round6 (min (max (baseCostUSD gas base pr env *
          (1 + env.markupPercentage / 100 * (PRIORITY_CONFIGS pr).markupMultiplier))
        (max (env.minPriceUsdc * (PRIORITY_CONFIGS pr).markupMultiplier) (5/1000)))
        MAX_PRICE_USDC) := by
  have h : (1 + env.markupPercentage / 100 - 1 : ℚ) = env.markupPercentage / 100 := by ring
  simp only [calculatePrice, h]

/-- C5: for every fixed gas estimate, base gas price, and nonnegative
spot price / markup percent / minimum price, the final quoted price is
monotone in the tier: `price(fast) ≥ price(normal) ≥ price(slow)`. -/
theorem calculatePrice_tier_monotone (gas base : ℕ) (env : PricingEnv)
    (hspot : 0 ≤ env.croUsdPrice) (hp : 0 ≤ env.markupPercentage)
    (hmin : 0 ≤ env.minPriceUsdc) :
    calculatePrice gas base .slow env ≤ calculatePrice gas base .normal env
    ∧ calculatePrice gas base .normal env ≤ calculatePrice gas base .fast env := by
  have hp' : (0:ℚ) ≤ env.markupPercentage / 100 := div_nonneg hp (by norm_num)
  constructor <;>
  · simp only [calculatePrice, baseCostUSD, PRIORITY_CONFIGS, MAX_PRICE_USDC, round6]
    gcongr <;> linarith [hp']

/-- Witness for C5: tier monotonicity at gas 100000, the default
5000-gwei gas price, 20% markup, $0.01 minimum and a $0.15 spot. -/
theorem calculatePrice_tier_monotone_witness :
    calculatePrice 100000 5000000000000 .slow ⟨20, 1/100, 3/20⟩ ≤
      calculatePrice 100000 5000000000000 .normal ⟨20, 1/100, 3/20⟩
    ∧ calculatePrice 100000 5000000000000 .normal ⟨20, 1/100, 3/20⟩ ≤
      calculatePrice 100000 5000000000000 .fast ⟨20, 1/100, 3/20⟩ :=
  calculatePrice_tier_monotone 100000 5000000000000 ⟨20, 1/100, 3/20⟩
    (by norm_num) (by norm_num) (by norm_num)

/-- C3 counterexample: for a batch of 3 requests each with gas 100000,
`MARKUP_PERCENTAGE=20`, gas price 5000 gwei and spot $0.15, the batch
endpoint quotes an undiscounted 270000 base units ($0.27) and a
discounted 243000 — not 48600 as claimed (0.3 + 0.3 + 0.3 = 0.9 gwei·M
gas → 1.5 CRO → $0.225 → ×1.2 markup = $0.27). -/
theorem batchQuote_example_not_48600 :
    batchQuote [100000, 100000, 100000] 5000000000000 .normal ⟨20, 1/100, 3/20⟩ =
      (270000, 243000)
    ∧ (batchQuote [100000, 100000, 100000] 5000000000000 .normal ⟨20, 1/100, 3/20⟩).2 ≠
      48600 := by
  constructor
  · norm_num [batchQuote, calculatePrice, baseCostUSD, round6, PRIORITY_CONFIGS,
      MAX_PRICE_USDC, List.sum_cons, List.sum_nil]
  · norm_num [batchQuote, calculatePrice, baseCostUSD, round6, PRIORITY_CONFIGS,
      MAX_PRICE_USDC, List.sum_cons, List.sum_nil]

/-- C3 (amended): for a batch of 3 requests each with gas 100000, with
`MARKUP_PERCENTAGE=20`, gas price 5000 gwei, and native spot price
$0.15, the batch quote at the normal tier prices the summed gas
(300000) once, applies the 10% batch discount, and the discounted
amount equals floor(270000 × 0.9) = 243000 stablecoin base units
(single undiscounted price $0.27). -/
theorem batchQuote_sum_once_discount_10pct :
    batchQuote [100000, 100000, 100000] 5000000000000 .normal ⟨20, 1/100, 3/20⟩ =
      (calculatePrice 300000 5000000000000 .normal ⟨20, 1/100, 3/20⟩,
       calculatePrice 300000 5000000000000 .normal ⟨20, 1/100, 3/20⟩ * 90 / 100)
    ∧ calculatePrice 300000 5000000000000 .normal ⟨20, 1/100, 3/20⟩ = 270000
    ∧ (270000 * 90 : ℤ) / 100 = 243000 := by
  refine ⟨?_, ?_, by norm_num⟩
  · simp [batchQuote, List.sum_cons, List.sum_nil]
  · norm_num [calculatePrice, baseCostUSD, round6, PRIORITY_CONFIGS, MAX_PRICE_USDC]

/-- Helper: the fold inside `getRelayer` returns the first element of
`b :: l` attaining the minimal `pendingTxCount`: everything before it
in the list is strictly busier, everything after it at least as busy. -/
theorem foldl_selectBest_first_min (l : List RelayerState) :
    ∀ b : RelayerState,
      ∃ l1 l2, b :: l = l1 ++ (l.foldl selectBest b) :: l2
        ∧ (∀ x ∈ l1, (l.foldl selectBest b).pendingTxCount < x.pendingTxCount)
        ∧ (∀ x ∈ l2, (l.foldl selectBest b).pendingTxCount ≤ x.pendingTxCount) := by
  induction l with
  | nil =>
      intro b
      exact ⟨[], [], rfl, by simp, by simp⟩
  | cons x xs ih =>
      intro b
      rw [List.foldl_cons]
      by_cases hx : x.pendingTxCount < b.pendingTxCount
      · have hsel : selectBest b x = x := by simp [selectBest, hx]
        rw [hsel]
        obtain ⟨l1, l2, hdec, hlt, hle⟩ := ih x
        have hres_le_x : (xs.foldl selectBest x).pendingTxCount ≤ x.pendingTxCount := by
          cases l1 with
          | nil =>
              simp only [List.nil_append] at hdec
              exact le_of_eq (congrArg RelayerState.pendingTxCount
                ((List.cons.injEq ..).mp hdec).1.symm)
          | cons y l1t =>
              simp only [List.cons_append] at hdec
              have hxy : x = y := ((List.cons.injEq ..).mp hdec).1
              have hy := hlt y (List.mem_cons_self y l1t)
              rw [← hxy] at hy
              exact hy.le
        refine ⟨b :: l1, l2, by simpa using hdec, ?_, hle⟩
        intro z hz
        rcases List.mem_cons.mp hz with hz | hz
        · exact hz ▸ lt_of_le_of_lt hres_le_x hx
        · exact hlt z hz
      · have hsel : selectBest b x = b := by simp [selectBest, hx]
        rw [hsel]
        obtain ⟨l1, l2, hdec, hlt, hle⟩ := ih b
        cases l1 with
        | nil =>
            simp only [List.nil_append] at hdec
            obtain ⟨hb, hl2⟩ := (List.cons.injEq ..).mp hdec
            refine ⟨[], x :: xs, by rw [List.nil_append, ← hb], by simp, ?_⟩
            intro z hz
            rcases List.mem_cons.mp hz with hz | hz
            · subst hz
              rw [← hb]
              exact not_lt.mp hx
            · exact hle z (hl2 ▸ hz)
        | cons y l1t =>
            simp only [List.cons_append] at hdec
            obtain ⟨hy, hxs⟩ := (List.cons.injEq ..).mp hdec
            have hrb : (xs.foldl selectBest b).pendingTxCount < b.pendingTxCount := by
              have h2 := hlt y (List.mem_cons_self y l1t)
              rw [← hy] at h2
              exact h2
            refine ⟨b :: x :: l1t, l2, ?_, ?_, hle⟩
            · conv_lhs => rw [hxs]
              simp
            · intro z hz
              rcases List.mem_cons.mp hz with hz | hz
              · exact hz ▸ hrb
              · rcases List.mem_cons.mp hz with hz | hz
                · exact hz ▸ lt_of_lt_of_le hrb (not_lt.mp hx)
                · exact hlt z (List.mem_cons_of_mem y hz)

/-- C6 counterexample: two idle relayers (equal `pendingTxCount`) where
the second was used strictly earlier (`lastUsed` 50 < 100); `getRelayer`
nevertheless returns the first, so ties are NOT broken by earliest
`lastUsedMillis`. -/
theorem getRelayer_ignores_lastUsed :
    getRelayer [⟨"0xA", 0, 100, 7⟩, ⟨"0xB", 0, 50, 9⟩] = some ⟨"0xA", 0, 100, 7⟩
    ∧ (⟨"0xB", 0, 50, 9⟩ : RelayerState).pendingTxCount =
        (⟨"0xA", 0, 100, 7⟩ : RelayerState).pendingTxCount
    ∧ (⟨"0xB", 0, 50, 9⟩ : RelayerState).lastUsed <
        (⟨"0xA", 0, 100, 7⟩ : RelayerState).lastUsed := by
  refine ⟨?_, rfl, by decide⟩
  decide

/-- C6 (amended): `getRelayer` returns the relayer with the smallest
`pendingTxCount`, and when several relayers tie on the smallest count
the tie is broken by the earliest position in the pool array
(`lastUsedMillis` is not consulted). -/
theorem getRelayer_first_least_busy (pool : List RelayerState) (r : RelayerState)
    (h : getRelayer pool = some r) :
    (∀ x ∈ pool, r.pendingTxCount ≤ x.pendingTxCount)
    ∧ ∃ l1 l2, pool = l1 ++ r :: l2 ∧ ∀ x ∈ l1, r.pendingTxCount < x.pendingTxCount := by
  match pool, h with
  | b :: l, h =>
    have hr : (b :: l).foldl selectBest b = r := by
      simpa [getRelayer] using h
    rw [List.foldl_cons] at hr
    have hsel : selectBest b b = b := by simp [selectBest]
    rw [hsel] at hr
    obtain ⟨l1, l2, hdec, hlt, hle⟩ := foldl_selectBest_first_min l b
    rw [hr] at hdec hlt hle
    refine ⟨?_, l1, l2, hdec, hlt⟩
    intro x hx
    rw [hdec] at hx
    rcases List.mem_append.mp hx with hx | hx
    · exact (hlt x hx).le
    · rcases List.mem_cons.mp hx with hx | hx
      · exact le_of_eq (congrArg _ hx.symm)
      · exact hle x hx

/-- Witness for C6 (amended): in a pool `[3, 1, 1]` (pending counts)
the second relayer is selected: minimal count, strictly smaller than
everything before it. -/
theorem getRelayer_first_least_busy_witness :
    (∀ x ∈ [(⟨"0xA", 3, 0, 0⟩ : RelayerState), ⟨"0xB", 1, 0, 0⟩, ⟨"0xC", 1, 0, 0⟩],
      (⟨"0xB", 1, 0, 0⟩ : RelayerState).pendingTxCount ≤ x.pendingTxCount)
    ∧ ∃ l1 l2, [(⟨"0xA", 3, 0, 0⟩ : RelayerState), ⟨"0xB", 1, 0, 0⟩, ⟨"0xC", 1, 0, 0⟩] =
        l1 ++ (⟨"0xB", 1, 0, 0⟩ : RelayerState) :: l2
      ∧ ∀ x ∈ l1, (⟨"0xB", 1, 0, 0⟩ : RelayerState).pendingTxCount < x.pendingTxCount :=
  getRelayer_first_least_busy [⟨"0xA", 3, 0, 0⟩, ⟨"0xB", 1, 0, 0⟩, ⟨"0xC", 1, 0, 0⟩]
    ⟨"0xB", 1, 0, 0⟩ (by decide)

/-- Helper: a Boolean filter keeps the whole list iff every element
satisfies the predicate. -/
theorem filter_success_length (L : List BatchItemResult) :
    ((L.filter (fun r => r.success)).length = L.length) ↔ ∀ r ∈ L, r.success = true := by
  constructor
  · intro hl r hr
    exact List.filter_eq_self.mp
      ((List.filter_sublist (l := L)).eq_of_length hl) r hr
  · intro hall
    rw [List.filter_eq_self.mpr hall]

/-- C7: for every settled batch relay, the requests are executed
sequentially in list order (the execution trace is the settlement
receipt followed by one `forwardExecuted` per item, in index order),
each producing `{success, txHash, to}` or `{success:false, error, to}`
as collected by `execBatch`, and the response's overall `success` field
is true iff every inner execution reported success. -/
theorem metaBatch_success_iff_all_inner (primary : String) (cfg : ServerConfig)
    (env : BatchRelayEnv) (pool : List RelayerState) (payment : X402Payment) (h : String)
    (hschema : env.schemaOk = true)
    (hsig : env.sigValids.all (fun b => b) = true)
    (hheader : env.paymentHeader = some (some payment))
    (hver : (verifyPayment cfg.receivingWallet payment
        (calculatePrice (env.requests.map ForwardRequest.gas).sum cfg.baseGasPrice
          env.priority cfg.pricing * 90 / 100) env.now env.chain).valid = true)
    (hsettle : executePayment env.settleSend = .ok h) :
    (metaBatchController primary cfg env pool).response.results =
      execBatch (env.requests.zip env.execOutcomes)
    ∧ (metaBatchController primary cfg env pool).trace =
        (executePaymentTr primary env.settleSend).1 ++
          (List.range (env.requests.zip env.execOutcomes).length).map
            (Ev.forwardExecuted primary)
    ∧ ((metaBatchController primary cfg env pool).response.success = some true ↔
        ∀ r ∈ execBatch (env.requests.zip env.execOutcomes), r.success = true) := by
  have hbody : metaBatchController primary cfg env pool =
      ⟨(executePaymentTr primary env.settleSend).1 ++
        (List.range (env.requests.zip env.execOutcomes).length).map
          (Ev.forwardExecuted primary),
       { status := 200,
         success := some (decide
           (((execBatch (env.requests.zip env.execOutcomes)).filter
              (fun r => r.success)).length =
            (execBatch (env.requests.zip env.execOutcomes)).length)),
         paymentTxHash := some h,
         results := execBatch (env.requests.zip env.execOutcomes) }, pool⟩ := by
    simp only [metaBatchController, hschema, hsig, hheader, not_true_eq_false,
      Bool.not_eq_true, if_false, executePaymentTr, hsettle]
    simp [hver]
  rw [hbody]
  refine ⟨rfl, rfl, ?_⟩
  simp only [Option.some.injEq, decide_eq_true_eq]
  constructor
  · intro hl
    exact (filter_success_length _).mp hl
  · intro hall
    exact (filter_success_length _).mpr hall

/-- Witness for C7: a settled batch of two requests where the first
execution succeeds and the second throws; the response collects both
outcomes and `success = some true` iff all succeeded (here: false). -/
theorem metaBatch_success_iff_all_inner_witness :
    (metaBatchController "0xprimary" cfgW batchEnvW []).response.results =
      execBatch (batchEnvW.requests.zip batchEnvW.execOutcomes)
    ∧ (metaBatchController "0xprimary" cfgW batchEnvW []).trace =
        (executePaymentTr "0xprimary" batchEnvW.settleSend).1 ++
          (List.range (batchEnvW.requests.zip batchEnvW.execOutcomes).length).map
            (Ev.forwardExecuted "0xprimary")
    ∧ ((metaBatchController "0xprimary" cfgW batchEnvW []).response.success = some true ↔
        ∀ r ∈ execBatch (batchEnvW.requests.zip batchEnvW.execOutcomes), r.success = true) :=
  metaBatch_success_iff_all_inner "0xprimary" cfgW batchEnvW [] payW
    "0xpay" rfl (by decide) rfl
    (by
      rw [show ((batchEnvW.requests.map ForwardRequest.gas).sum) = 300000 from by decide,
        show calculatePrice 300000 cfgW.baseGasPrice batchEnvW.priority cfgW.pricing = 270000
          from by norm_num [calculatePrice, baseCostUSD, round6, PRIORITY_CONFIGS,
            MAX_PRICE_USDC, cfgW, pricingW, batchEnvW]]
      decide)
    rfl

/-- Helper: shape analysis of `metaRelayController` — the pool is
passed through untouched, and the trace is either empty, a single
settlement receipt with a non-1 status (failed settlement), or a
status-1 settlement receipt followed by the forwarder execution. -/
theorem metaRelay_shape (primary : String) (cfg : ServerConfig) (env : SingleRelayEnv)
    (pool : List RelayerState) :
    (metaRelayController primary cfg env pool).pool = pool
    ∧ ((metaRelayController primary cfg env pool).trace = []
      ∨ (∃ st, st ≠ 1 ∧ (metaRelayController primary cfg env pool).trace =
          [Ev.settleReceipt primary st])
      ∨ (metaRelayController primary cfg env pool).trace =
          [Ev.settleReceipt primary 1, Ev.forwardExecuted primary 0]) := by
  by_cases h1 : env.schemaOk
  case neg => simp [metaRelayController, h1]
  case pos =>
  by_cases h2 : env.sigValid
  case neg => simp [metaRelayController, h1, h2]
  case pos =>
  rcases hh : env.paymentHeader with _ | op
  · simp [metaRelayController, h1, h2, hh]
  rcases op with _ | payment
  · simp [metaRelayController, h1, h2, hh]
  by_cases hv : (verifyPayment cfg.receivingWallet payment
      (calculatePrice env.request.gas cfg.baseGasPrice env.priority cfg.pricing)
      env.now env.chain).valid
  case neg => simp [metaRelayController, h1, h2, hh, hv]
  case pos =>
  rcases hs : env.settleSend with _ | receipt
  · simp [metaRelayController, h1, h2, hh, hv, hs, executePaymentTr, executePayment]
  by_cases hst : receipt.status = 1
  · rcases ho : env.execOutcome with _ | r <;>
      simp [metaRelayController, h1, h2, hh, hv, hs, hst, ho, executePaymentTr, executePayment]
  · refine ⟨?_, Or.inr (Or.inl ⟨receipt.status, hst, ?_⟩)⟩ <;>
      simp [metaRelayController, h1, h2, hh, hv, hs, hst, executePaymentTr, executePayment]

/-- C1: within a single `/meta/relay` request, payment settlement
strictly happens-before forwarder execution: `forwarderService.execute`
appears in the trace only after a settlement receipt awaited with
status 1; and if `executePayment` throws, the handler responds 402
`PAYMENT_FAILED` and never calls `forwarderService.execute`. -/
theorem metaRelay_settles_before_execute :
    (∀ (primary : String) (cfg : ServerConfig) (env : SingleRelayEnv)
        (pool : List RelayerState) (s : String) (i : Nat),
      Ev.forwardExecuted s i ∈ (metaRelayController primary cfg env pool).trace →
      ∃ l2, (metaRelayController primary cfg env pool).trace =
          Ev.settleReceipt primary 1 :: l2
        ∧ Ev.forwardExecuted s i ∈ l2)
    ∧ (∀ (primary : String) (cfg : ServerConfig) (env : SingleRelayEnv)
        (pool : List RelayerState) (payment : X402Payment),
      env.schemaOk = true → env.sigValid = true →
      env.paymentHeader = some (some payment) →
      (verifyPayment cfg.receivingWallet payment
        (calculatePrice env.request.gas cfg.baseGasPrice env.priority cfg.pricing)
        env.now env.chain).valid = true →
      executePayment env.settleSend = .error () →
      (metaRelayController primary cfg env pool).response =
        { status := 402, error := some "PAYMENT_FAILED" }
      ∧ ∀ (s : String) (i : Nat),
          Ev.forwardExecuted s i ∉ (metaRelayController primary cfg env pool).trace) := by
  constructor
  · intro primary cfg env pool s i hmem
    rcases (metaRelay_shape primary cfg env pool).2 with htr | ⟨st, hst, htr⟩ | htr
    · rw [htr] at hmem
      simp at hmem
    · rw [htr] at hmem
      simp at hmem
    · rw [htr] at hmem ⊢
      simp only [List.mem_cons, List.mem_singleton] at hmem
      rcases hmem with hmem | hmem | hmem
      · exact absurd hmem (by simp)
      · exact ⟨[Ev.forwardExecuted primary 0], rfl, by simp [hmem]⟩
      · simp at hmem
  · intro primary cfg env pool payment hschema hsig hheader hver herr
    constructor
    · simp [metaRelayController, hschema, hsig, hheader, hver, executePaymentTr, herr]
    · intro s i
      simp [metaRelayController, hschema, hsig, hheader, hver, executePaymentTr, herr]
      rcases hs : env.settleSend with _ | receipt
      · simp [executePaymentTr]
      · simp [executePaymentTr]

/-- Witness for C1: in a fully successful request the trace is the
status-1 settlement receipt followed by the execution; in a request
whose settlement receipt has status 0 the response is 402
`PAYMENT_FAILED` and no execution event occurs. -/
theorem metaRelay_settles_before_execute_witness :
    (∃ l2, (metaRelayController "0xP" cfgW relayEnvW []).trace =
        Ev.settleReceipt "0xP" 1 :: l2 ∧ Ev.forwardExecuted "0xP" 0 ∈ l2)
    ∧ ((metaRelayController "0xP" cfgW relayEnvFailW []).response =
        { status := 402, error := some "PAYMENT_FAILED" }
      ∧ ∀ (s : String) (i : Nat),
          Ev.forwardExecuted s i ∉ (metaRelayController "0xP" cfgW relayEnvFailW []).trace) := by
  have hcp : calculatePrice 100000 5000000000000 .normal pricingW = 90000 := by
    norm_num [calculatePrice, baseCostUSD, round6, PRIORITY_CONFIGS, MAX_PRICE_USDC, pricingW]
  have hver : (verifyPayment "0xRW" payW
      (calculatePrice 100000 5000000000000 .normal pricingW) 5
      ⟨Except.ok false, Except.ok 1000000000⟩).valid = true := by
    rw [hcp]
    decide
  constructor
  · apply metaRelay_settles_before_execute.1 "0xP" cfgW relayEnvW [] "0xP" 0
    rw [show (metaRelayController "0xP" cfgW relayEnvW []).trace =
        [Ev.settleReceipt "0xP" 1, Ev.forwardExecuted "0xP" 0] from by
      simp [metaRelayController, relayEnvW, cfgW, executePaymentTr, executePayment, hver]]
    simp
  · exact metaRelay_settles_before_execute.2 "0xP" cfgW relayEnvFailW [] payW rfl rfl rfl
      hver rfl

/-- Helper: shape analysis of `metaBatchController` — pool untouched,
trace empty, a lone settlement receipt, or a settlement receipt
followed by per-item executions in index order. -/
theorem metaBatch_shape (primary : String) (cfg : ServerConfig) (env : BatchRelayEnv)
    (pool : List RelayerState) :
    (metaBatchController primary cfg env pool).pool = pool
    ∧ ((metaBatchController primary cfg env pool).trace = []
      ∨ (∃ st, (metaBatchController primary cfg env pool).trace =
          [Ev.settleReceipt primary st])
      ∨ (∃ st n, (metaBatchController primary cfg env pool).trace =
          Ev.settleReceipt primary st :: (List.range n).map (Ev.forwardExecuted primary))) := by
  by_cases h1 : env.schemaOk
  case neg => simp [metaBatchController, h1]
  case pos =>
  by_cases h2 : env.sigValids.all (fun b => b)
  case neg => simp [metaBatchController, h1, h2]
  case pos =>
  rcases hh : env.paymentHeader with _ | op
  · simp [metaBatchController, h1, h2, hh]
  rcases op with _ | payment
  · simp [metaBatchController, h1, h2, hh]
  by_cases hv : (verifyPayment cfg.receivingWallet payment
      (calculatePrice (env.requests.map ForwardRequest.gas).sum cfg.baseGasPrice
        env.priority cfg.pricing * 90 / 100) env.now env.chain).valid
  case neg => simp [metaBatchController, h1, h2, hh, hv]
  case pos =>
  rcases hs : env.settleSend with _ | receipt
  · simp [metaBatchController, h1, h2, hh, hv, hs, executePaymentTr, executePayment]
  by_cases hst : receipt.status = 1
  · refine ⟨?_, Or.inr (Or.inr ⟨receipt.status,
      (env.requests.zip env.execOutcomes).length, ?_⟩)⟩ <;>
      simp [metaBatchController, h1, h2, hh, hv, hs, hst, executePaymentTr, executePayment]
  · refine ⟨?_, Or.inr (Or.inl ⟨receipt.status, ?_⟩)⟩ <;>
      simp [metaBatchController, h1, h2, hh, hv, hs, hst, executePaymentTr, executePayment]

/-- C10: every on-chain transaction issued by the single and batch
meta-relay pipelines (settlement and forwarder execution) is signed by
the single primary wallet, and the relayer pool state is passed
through unchanged by both controllers. -/
theorem relayPipelines_primary_wallet_pool_frame (primary : String) (cfg : ServerConfig)
    (senv : SingleRelayEnv) (benv : BatchRelayEnv) (pool : List RelayerState) :
    (metaRelayController primary cfg senv pool).pool = pool
    ∧ (metaBatchController primary cfg benv pool).pool = pool
    ∧ (∀ ev ∈ (metaRelayController primary cfg senv pool).trace, ev.signer = primary)
    ∧ (∀ ev ∈ (metaBatchController primary cfg benv pool).trace, ev.signer = primary) := by
  obtain ⟨hp1, htr1⟩ := metaRelay_shape primary cfg senv pool
  obtain ⟨hp2, htr2⟩ := metaBatch_shape primary cfg benv pool
  refine ⟨hp1, hp2, ?_, ?_⟩
  · intro ev hev
    rcases htr1 with htr | ⟨st, _, htr⟩ | htr <;> rw [htr] at hev
    · simp at hev
    · simp only [List.mem_singleton] at hev
      simp [hev, Ev.signer]
    · simp only [List.mem_cons, List.mem_singleton] at hev
      rcases hev with hev | hev | hev
      · simp [hev, Ev.signer]
      · simp [hev, Ev.signer]
      · simp at hev
  · intro ev hev
    rcases htr2 with htr | ⟨st, htr⟩ | ⟨st, n, htr⟩ <;> rw [htr] at hev
    · simp at hev
    · simp only [List.mem_singleton] at hev
      simp [hev, Ev.signer]
    · rcases List.mem_cons.mp hev with hev | hev
      · simp [hev, Ev.signer]
      · obtain ⟨j, _, hj⟩ := List.mem_map.mp hev
        simp [← hj, Ev.signer]

/-- Witness for C10: on a pool of one relayer, a fully successful
single relay leaves the pool unchanged, and the settlement event in
its trace is signed by the primary wallet. -/
theorem relayPipelines_primary_wallet_pool_frame_witness :
    ((metaRelayController "0xP" cfgW relayEnvW [⟨"0xA", 2, 3, 4⟩]).pool = [⟨"0xA", 2, 3, 4⟩]
    ∧ (metaBatchController "0xP" cfgW batchEnvW [⟨"0xA", 2, 3, 4⟩]).pool = [⟨"0xA", 2, 3, 4⟩]
    ∧ (∀ ev ∈ (metaRelayController "0xP" cfgW relayEnvW [⟨"0xA", 2, 3, 4⟩]).trace,
        ev.signer = "0xP")
    ∧ (∀ ev ∈ (metaBatchController "0xP" cfgW batchEnvW [⟨"0xA", 2, 3, 4⟩]).trace,
        ev.signer = "0xP"))
    ∧ (Ev.settleReceipt "0xP" 1).signer = "0xP" :=
  ⟨relayPipelines_primary_wallet_pool_frame "0xP" cfgW relayEnvW batchEnvW [⟨"0xA", 2, 3, 4⟩],
   (relayPipelines_primary_wallet_pool_frame "0xP" cfgW relayEnvW batchEnvW
      [⟨"0xA", 2, 3, 4⟩]).2.2.1 (Ev.settleReceipt "0xP" 1)
     (by
        have hcp : calculatePrice 100000 5000000000000 .normal pricingW = 90000 := by
          norm_num [calculatePrice, baseCostUSD, round6, PRIORITY_CONFIGS, MAX_PRICE_USDC,
            pricingW]
        have hver : (verifyPayment "0xRW" payW
            (calculatePrice 100000 5000000000000 .normal pricingW) 5
            ⟨Except.ok false, Except.ok 1000000000⟩).valid = true := by
          rw [hcp]
          decide
        rw [show (metaRelayController "0xP" cfgW relayEnvW [⟨"0xA", 2, 3, 4⟩]).trace =
            [Ev.settleReceipt "0xP" 1, Ev.forwardExecuted "0xP" 0] from by
          simp [metaRelayController, relayEnvW, cfgW, executePaymentTr, executePayment, hver]]
        simp)⟩

end CroGas
